import Mathlib

/-!
Shallow embedding of the cala-web HTTP server core (src/lib.rs) and proofs
about it.  Pure data and control flow are translated directly from the Rust
source; socket reads and writes are modelled by explicit scripts of syscall
outcomes, and `panic!` is modelled by dedicated `panicked` constructors
carrying the panic message.  Bytes are modelled as `Nat` values.
-/

namespace CalaWeb

/-- Models the standard UTF-8 encoding of one Unicode scalar value, as used by
Rust's `str::bytes` / `String::into_bytes` (and by `InternalStream::push_str`,
which does `self.output.extend(text.bytes())`). -/
def utf8Enc (c : Char) : List Nat :=
  let v := c.toNat
  if v < 128 then [v]
  else if v < 2048 then [192 + v / 64, 128 + v % 64]
  else if v < 65536 then [224 + v / 4096, 128 + v / 64 % 64, 128 + v % 64]
  else [240 + v / 262144, 128 + v / 4096 % 64, 128 + v / 64 % 64, 128 + v % 64]

/-- Byte sequence (as `Nat`s) of the UTF-8 encoding of a string: the model of
Rust's `str::bytes` collected into a vector. -/
def utf8 (s : String) : List Nat := (s.data.flatMap utf8Enc)

/-- Whether a byte is a UTF-8 continuation byte (`0x80..=0xBF`). -/
def utf8Cont (b : Nat) : Bool := 128 ≤ b && b < 192

/-- Modelled from the Rust standard library: one step of strict UTF-8 decoding
as performed by `std::str::from_utf8` (rejecting overlong forms, surrogates and
out-of-range scalar values).  The first argument is fuel; it is always called
with fuel at least the length of the byte list, and each step consumes at
least one byte and exactly one unit of fuel. -/
def utf8DecodeAux : Nat → List Nat → Option (List Char)
  | _, [] => some []
  | 0, _ :: _ => none
  | fuel + 1, b1 :: rest =>
    if b1 < 128 then
      (utf8DecodeAux fuel rest).map (fun cs => Char.ofNat b1 :: cs)
    else if b1 < 194 then
      none
    else if b1 < 224 then
      match rest with
      | b2 :: rest2 =>
        if utf8Cont b2 then
          (utf8DecodeAux fuel rest2).map
            (fun cs => Char.ofNat ((b1 - 192) * 64 + (b2 - 128)) :: cs)
        else none
      | [] => none
    else if b1 < 240 then
      match rest with
      | b2 :: b3 :: rest3 =>
        if utf8Cont b2 && utf8Cont b3 then
          let v := (b1 - 224) * 4096 + (b2 - 128) * 64 + (b3 - 128)
          if 2048 ≤ v && !(55296 ≤ v && v < 57344) then
            (utf8DecodeAux fuel rest3).map (fun cs => Char.ofNat v :: cs)
          else none
        else none
      | _ => none
    else if b1 < 245 then
      match rest with
      | b2 :: b3 :: b4 :: rest4 =>
        if utf8Cont b2 && utf8Cont b3 && utf8Cont b4 then
          let v := (b1 - 240) * 262144 + (b2 - 128) * 4096 +
            (b3 - 128) * 64 + (b4 - 128)
          if 65536 ≤ v && v < 1114112 then
            (utf8DecodeAux fuel rest4).map (fun cs => Char.ofNat v :: cs)
          else none
        else none
      | _ => none
    else none

/-- Modelled from the Rust standard library: `std::str::from_utf8`, returning
`none` exactly on invalid UTF-8 (the `Err` case in Rust). -/
def utf8Decode (bytes : List Nat) : Option String :=
  (utf8DecodeAux bytes.length bytes).map (fun cs => String.mk cs)

/-- Internal per-thread message, translated from `enum AsyncMsg` in lib.rs
(`Quit`, `NewTask`, `OldTask`).  The payload of `NewTask` (channel receiver
and boxed task) plays no role in the properties proved here. -/
inductive AsyncMsg
  | quit
  | newTask
  | oldTask
deriving DecidableEq

/-- Outcome of an awaited socket syscall: the first non-would-block result the
polled future observes.  Would-block polls only re-register the waker and
suspend, so they are invisible to the awaited result; `err` is any I/O error
other than would-block. -/
inductive IOOutcome
  | ok (n : Nat)
  | err (msg : String)
deriving DecidableEq

/-- Result of awaiting a socket future in a model where `panic!` is explicit:
either the future's value or a process panic with its message. -/
inductive AwaitResult (α : Type)
  | value (a : α)
  | panicked (msg : String)
deriving DecidableEq

/-- Translated from `impl Future for StreamWrite` (lib.rs lines 293-307):
`Ok(_)` completes immediately, any error other than would-block panics with
the message "Stream Write IO Error ...!".  The argument is the first
non-would-block outcome of `stream.write(..)`. -/
def streamWriteAwait : IOOutcome → AwaitResult Unit
  | .ok _ => .value ()
  | .err m => .panicked ("Stream Write IO Error " ++ m ++ "!")

/-- Translated from `impl Future for StreamFlush` (lib.rs lines 311-324):
`Ok(_)` completes, any error other than would-block panics; the source reuses
the message "Stream Write IO Error ...!" verbatim for the flush future. -/
def streamFlushAwait : IOOutcome → AwaitResult Unit
  | .ok _ => .value ()
  | .err m => .panicked ("Stream Write IO Error " ++ m ++ "!")

/-- One event observed by a `stream.read(&mut buffer)` call inside
`StreamRead::poll`: a successful read returning the bytes placed in the
512-byte chunk, a would-block error, or any other I/O error. -/
inductive ReadEvent
  | ok (data : List Nat)
  | wouldBlock
  | err (msg : String)
deriving DecidableEq

/-- Result of one `poll` of the `StreamRead` future: ready with the
accumulated buffer, pending (the waker was registered on the read-direction
device and `Poll::Pending` returned), a panic, or the event script ran out
while the poll loop was still running. -/
inductive ReadPoll
  | ready (buf : List Nat)
  | pending (buf : List Nat)
  | panicked (buf : List Nat) (msg : String)
  | outOfScript (buf : List Nat)
deriving DecidableEq

/-- Translated from `impl Future for StreamRead` (lib.rs lines 265-289).  The
poll loop consumes successive read results from the script: `Ok(bytes)` with
`bytes != 0` extends the accumulating buffer and returns `Ready` if
`bytes != 512`, otherwise loops; a non-would-block error panics; everything
else — would-block, and also `Ok(0)`, which fails the first arm's
`bytes != 0` guard and falls into the catch-all `_` arm — registers the waker
and returns `Pending`. -/
def streamReadPoll : List ReadEvent → List Nat → ReadPoll
  | [], buf => .outOfScript buf
  | .ok data :: rest, buf =>
    if data.length ≠ 0 then
      if data.length ≠ 512 then .ready (buf ++ data)
      else streamReadPoll rest (buf ++ data)
    else .pending buf
  | .wouldBlock :: _, buf => .pending buf
  | .err m :: _, buf => .panicked buf ("Stream Read IO Error " ++ m ++ "!")

/-- Translated from `struct InternalStream` (lib.rs lines 365-369): the
reference-counted socket and the write-direction reactor device are abstracted
to numeric identifiers, `output` is the pending output buffer. -/
structure InternalStream where
  sock : Nat
  write_device : Nat
  output : List Nat
deriving DecidableEq

/-- Translated from `InternalStream::push_str` (lib.rs lines 390-392):
`self.output.extend(text.bytes())`. -/
def InternalStream.push_str (s : InternalStream) (text : String) : InternalStream :=
  { s with output := s.output ++ utf8 text }

/-- Translated from `InternalStream::push_data` (lib.rs lines 395-397):
`self.output.extend(bytes)`. -/
def InternalStream.push_data (s : InternalStream) (bytes : List Nat) : InternalStream :=
  { s with output := s.output ++ bytes }

/-- Result of `InternalStream::send`: either the bytes submitted to the
socket write together with the returned `Result` value, or a panic raised
inside the write/flush futures. -/
inductive SendResult
  | sent (written : List Nat) (ret : Except String Unit)
  | panicked (msg : String)

/-- Whether a send result is an error returned through the `Result` value
(as opposed to success or a panic). -/
def SendResult.isErrReturn : SendResult → Bool
  | .sent _ (Except.error _) => true
  | _ => false

/-- Translated from `InternalStream::send` (lib.rs lines 380-387): awaits
`StreamWrite(stream, &self.write_device, &self.output)`, then
`StreamFlush(stream, &self.write_device)`, then returns `Ok(())`.  The two
`IOOutcome` arguments are the first non-would-block results of the underlying
write and flush; the second component of the result is the stream after the
call (the source never touches `self.output` here, so it is unchanged). -/
def InternalStream.send (s : InternalStream) (w f : IOOutcome) :
    SendResult × InternalStream :=
  match streamWriteAwait w with
  | .panicked m => (.panicked m, s)
  | .value _ =>
    match streamFlushAwait f with
    | .panicked m => (.panicked m, s)
    | .value _ => (.sent s.output (Except.ok ()), s)

/-- Translated from `pub struct Stream` (lib.rs lines 329-331): the
`Cell<Option<InternalStream>>` hand-off slot is modelled by its content. -/
structure Stream where
  internal : Option InternalStream
deriving DecidableEq

/-- Result of one public `Stream` operation: the updated stream (slot content
at return) together with the operation's value, or a panic. -/
inductive OpResult (α : Type)
  | ok (a : α)
  | panicked (msg : String)

/-- Translated from `Stream::push_str` (lib.rs lines 347-353):
`self.internal.take().unwrap()` (panicking on an empty slot), mutate, then
`self.internal.set(Some(this))`. -/
def Stream.push_str (st : Stream) (text : String) : OpResult Stream :=
  match st.internal with
  | none => .panicked "called `Option::unwrap()` on a `None` value"
  | some this => .ok ⟨some (this.push_str text)⟩

/-- Translated from `Stream::push_data` (lib.rs lines 356-362). -/
def Stream.push_data (st : Stream) (bytes : List Nat) : OpResult Stream :=
  match st.internal with
  | none => .panicked "called `Option::unwrap()` on a `None` value"
  | some this => .ok ⟨some (this.push_data bytes)⟩

/-- Translated from `Stream::send` (lib.rs lines 336-344): take the internal
state (panicking on an empty slot), await `this.send()`, restore the state,
and return the result.  A panic inside the awaited send propagates. -/
def Stream.send (st : Stream) (w f : IOOutcome) : OpResult (Stream × SendResult) :=
  match st.internal with
  | none => .panicked "called `Option::unwrap()` on a `None` value"
  | some this =>
    match this.send w f with
    | (SendResult.panicked m, _) => .panicked m
    | (r, this2) => .ok (⟨some this2⟩, r)

/-- Translated from `struct Web` (lib.rs lines 258-261): the static-resource
root path and the URL table.  A `HashMap` entry maps a path to its content
type and its `ResourceGenerator`; the generator itself is opaque, so it is
represented by a numeric handler identifier. -/
structure Web where
  path : String
  urls : List (String × String × Nat)

/-- Observable outcome of `handle_connection` towards the socket:
`silentClose` when the function returns early without writing anything,
`wrote bytes` when a static/404 branch pushed `bytes` and submitted them with
`send`, and `handedToHandler h ct pending` when the registered handler `h`
for a route with content type `ct` received the stream whose pending output
buffer already holds `pending`. -/
inductive ConnResult
  | silentClose
  | wrote (bytes : List Nat)
  | handedToHandler (handlerId : Nat) (contentType : String) (pending : List Nat)
deriving DecidableEq

/-- Bytes that `handle_connection` itself submitted to the socket (a handler
invoked in the `handedToHandler` case performs its own sends; none have
happened when the handler is entered). -/
def ConnResult.socketBytes : ConnResult → List Nat
  | .silentClose => []
  | .wrote bs => bs
  | .handedToHandler _ _ _ => []

/-- Translated from the path-scanning loop of `handle_connection` (lib.rs
lines 421-431): starting at index `i` of the remaining bytes, return the index
of the first space byte, or `none` if the buffer ends first. -/
def findSpaceAux : List Nat → Nat → Option Nat
  | [], _ => none
  | b :: rest, i => if b = 32 then some i else findSpaceAux rest (i + 1)

/-- Index `end` of the space terminating the request path: the first space at
index 4 or later, mirroring `let mut end = 4; loop { .. }` in lib.rs. -/
def pathEnd (buffer : List Nat) : Option Nat :=
  findSpaceAux (buffer.drop 4) 4

/-- Translated from the request-line validation of `handle_connection`
(lib.rs lines 414-448): require the `GET ` prefix, find the path's
terminating space, require `HTTP/1.1\r\n` immediately after it, and require
the path bytes (`&buffer[4..end]`) to be valid UTF-8; on any failure the
source returns `AsyncMsg::OldTask` without writing to the socket. -/
def parseRequest (buffer : List Nat) : Option String :=
  if ¬ ((utf8 "GET ").isPrefixOf buffer) then none
  else
    match pathEnd buffer with
    | none => none
    | some e =>
      if ¬ ((utf8 "HTTP/1.1\r\n").isPrefixOf (buffer.drop (e + 1))) then none
      else utf8Decode ((buffer.drop 4).take (e - 4))

/-- Fresh `InternalStream` as built in `handle_connection` (lib.rs line 441):
`InternalStream { stream: streama, output: vec![], write_device }`; the socket
and device identifiers are irrelevant to the properties proved and fixed to 0. -/
def streamb0 : InternalStream := ⟨0, 0, []⟩

/-- Translated from the routing part of `handle_connection` (lib.rs lines
450-505).  `fs` models `std::fs::read_to_string` (`some` contents on success).
The exact `push_str` call sequence of the source is reproduced; `wrote`
records the buffer submitted by the final `send`, and the route-table branch
hands the stream (holding the pushed status line and header) to the
registered handler. -/
def route (path : String) (web : Web) (fs : String → Option String) : ConnResult :=
  let index := web.path ++ "/index.html"
  let e404 := web.path ++ "/404.html"
  if path = "/" then
    match fs index with
    | some contents =>
      let s := ((((streamb0.push_str "HTTP/1.1 200 OK\nContent-Type: ").push_str
        "text/html; charset=utf-8").push_str "\r\n\r\n").push_str contents)
      .wrote s.output
    | none =>
      let s := (((streamb0.push_str "HTTP/1.1 404 NOT FOUND\nContent-Type: ").push_str
        "text/html; charset=utf-8").push_str "\r\n\r\n")
      let s := match fs e404 with
        | some cs => s.push_str cs
        | none => s.push_str "404 NOT FOUND"
      .wrote s.output
  else
    let page := web.path ++ path
    match List.lookup path web.urls with
    | some request =>
      let s := (((streamb0.push_str "HTTP/1.1 200 OK\nContent-Type: ").push_str
        request.1).push_str "\r\n\r\n")
      .handedToHandler request.2 request.1 s.output
    | none =>
      match fs page with
      | some contents =>
        let s := ((((streamb0.push_str "HTTP/1.1 200 OK\nContent-Type: ").push_str
          "text/html; charset=utf-8").push_str "\r\n\r\n").push_str contents)
        .wrote s.output
      | none =>
        let s := (((streamb0.push_str "HTTP/1.1 404 NOT FOUND\nContent-Type: ").push_str
          "text/html; charset=utf-8").push_str "\r\n\r\n")
        let s := match fs e404 with
          | some cs => s.push_str cs
          | none => s.push_str "404 NOT FOUND"
        .wrote s.output

/-- Translated from `handle_connection` (lib.rs lines 405-508): validate the
request line, then route; every branch of the source function returns
`AsyncMsg::OldTask`.  The transport is assumed ready for the route branches
(the source `unwrap`s each `send`, whose result is always `Ok(())`). -/
def handle_connection (buffer : List Nat) (web : Web) (fs : String → Option String) :
    ConnResult × AsyncMsg :=
  match parseRequest buffer with
  | none => (.silentClose, .oldTask)
  | some path => (route path web fs, .oldTask)

/-- Behaviour of one entry of the `slice_select` task vector at the current
poll: either its `poll(cx)` returns `Ready` with a value, or it returns
`Pending` (having registered the waker through its own mechanics). -/
inductive MPoll (α : Type)
  | ready (a : α)
  | pending
deriving DecidableEq

/-- Translated from `SliceSelect::poll` (lib.rs lines 43-59): scan the task
vector from index 0; on the first entry that polls `Ready(ret)`, remove it
with `Vec::remove` (shifting later entries down) and return `Ready(ret)`; if
every entry polls `Pending`, return `Pending` (`none`) with the vector
unchanged. -/
def sliceSelectPoll {α : Type} : List (MPoll α) → Option (α × List (MPoll α))
  | [] => none
  | .ready a :: rest => some (a, rest)
  | .pending :: rest =>
    match sliceSelectPoll rest with
    | some (a, l) => some (a, .pending :: l)
    | none => none

/-- Translated from the thread-selection loop of `WebServer::poll` (lib.rs
lines 226-234): running pair `(thread_id, thread_tasks)`, updated at index
`id` only when `n_tasks < thread_tasks` (strict), so the first worker wins
ties. -/
def selectAux : Nat → Nat → Nat → List Nat → Nat × Nat
  | bestId, bestVal, _, [] => (bestId, bestVal)
  | bestId, bestVal, id, n :: rest =>
    if n < bestVal then selectAux id n (id + 1) rest
    else selectAux bestId bestVal (id + 1) rest

/-- Thread selection over the list of per-worker counter values, initialised
with `thread_id = 0` and `thread_tasks = self.threads[0].tasks()` as in the
source (the pool always holds 4 threads, so the list is never empty; the `[]`
case is unreachable junk). -/
def selectThread (counts : List Nat) : Nat × Nat :=
  match counts with
  | [] => (0, 0)
  | c0 :: rest => selectAux 0 c0 1 rest

/-- Translated from `struct Thread` (lib.rs lines 110-117): the atomic
in-flight task counter and the channel of jobs sent to the worker, with jobs
abstracted to numeric identifiers. -/
structure ThreadH where
  num_tasks : Nat
  queue : List Nat
deriving DecidableEq

/-- Translated from `Thread::send` (lib.rs lines 140-145): increment
`num_tasks` with `fetch_add(1)` and then send `Message::NewJob` on the
channel. -/
def threadSend (t : ThreadH) (job : Nat) : ThreadH :=
  { num_tasks := t.num_tasks + 1, queue := t.queue ++ [job] }

/-- Translated from the dispatch half of `WebServer::poll` (lib.rs lines
226-243): select the least-busy thread from the current counter values and
send the new connection's job to it; returns the updated pool and the chosen
worker index. -/
def serverDispatch (threads : List ThreadH) (job : Nat) : List ThreadH × Nat :=
  let sel := selectThread (threads.map ThreadH.num_tasks)
  (threads.set sel.1 (threadSend (threads.getD sel.1 ⟨0, []⟩) job), sel.1)

/-- Translated from the `match slice_select(&mut tasks).await` arms of
`async_thread_main` (lib.rs lines 82-98): only the `OldTask` arm touches the
worker's counter, with `fetch_sub(1)`; `NewTask` re-arms the receive future
and pushes the job, `Quit` exits the loop.  The counter is `Int`-valued so
that the no-underflow invariant is a provable statement rather than a typing
artifact. -/
def loopCounterStep (counter : Int) (msg : AsyncMsg) : Int :=
  match msg with
  | .oldTask => counter - 1
  | .newTask => counter
  | .quit => counter

/-- One event in the life of a single worker's counter: `dispatch` is the
`fetch_add(1)` in `Thread::send`, `complete` is the `fetch_sub(1)` performed
by the executor loop on receiving `AsyncMsg::OldTask`. -/
inductive WorkerEvent
  | dispatch
  | complete
deriving DecidableEq

/-- Counter value after processing a trace of events, starting from `c`. -/
def counterFrom (c : Int) : List WorkerEvent → Int
  | [] => c
  | .dispatch :: rest => counterFrom (c + 1) rest
  | .complete :: rest => counterFrom (c - 1) rest

/-- Counter value after a trace, starting from the initial value 0 set in
`Thread::new` (lib.rs line 123). -/
def counterAfter (tr : List WorkerEvent) : Int := counterFrom 0 tr

/-! Helper lemmas. -/

/-- UTF-8 encoding distributes over string append. -/
theorem utf8_append (a b : String) : utf8 (a ++ b) = utf8 a ++ utf8 b := by
  simp [utf8, String.data_append, List.flatMap_append]

/-- Splitting the 200 response header literal at the source's `push_str`
boundaries. -/
theorem utf8_header200 :
    utf8 "HTTP/1.1 200 OK\nContent-Type: text/html; charset=utf-8\r\n\r\n"
      = utf8 "HTTP/1.1 200 OK\nContent-Type: " ++ utf8 "text/html; charset=utf-8"
        ++ utf8 "\r\n\r\n" := by
  decide

/-- Splitting the 404 response header literal at the source's `push_str`
boundaries. -/
theorem utf8_header404 :
    utf8 "HTTP/1.1 404 NOT FOUND\nContent-Type: text/html; charset=utf-8\r\n\r\n"
      = utf8 "HTTP/1.1 404 NOT FOUND\nContent-Type: " ++ utf8 "text/html; charset=utf-8"
        ++ utf8 "\r\n\r\n" := by
  decide

/-- The concrete C1 request parses to the root path. -/
theorem parse_root_request : parseRequest (utf8 "GET / HTTP/1.1\r\n\r\n") = some "/" := by
  decide

/-- Contents of the stream buffer after the 200/html/`\r\n\r\n`/body sequence
of pushes performed by the static-serving branches. -/
theorem output_200_html (c : String) :
    ((((streamb0.push_str "HTTP/1.1 200 OK\nContent-Type: ").push_str
        "text/html; charset=utf-8").push_str "\r\n\r\n").push_str c).output
      = utf8 ("HTTP/1.1 200 OK\nContent-Type: text/html; charset=utf-8\r\n\r\n" ++ c) := by
  simp [InternalStream.push_str, streamb0, utf8_append, utf8_header200]

/-- Contents of the stream buffer after the 404 header pushes followed by a
body push. -/
theorem output_404_body (c : String) :
    ((((streamb0.push_str "HTTP/1.1 404 NOT FOUND\nContent-Type: ").push_str
        "text/html; charset=utf-8").push_str "\r\n\r\n").push_str c).output
      = utf8 ("HTTP/1.1 404 NOT FOUND\nContent-Type: text/html; charset=utf-8\r\n\r\n" ++ c) := by
  simp [InternalStream.push_str, streamb0, utf8_append, utf8_header404]

/-- Contents of the stream buffer after the 200 status-line push, a
content-type push and the blank-line push, as performed by the route-table
branch before the registered handler is invoked. -/
theorem output_200_ct (ct : String) :
    (((streamb0.push_str "HTTP/1.1 200 OK\nContent-Type: ").push_str ct).push_str
        "\r\n\r\n").output
      = utf8 ("HTTP/1.1 200 OK\nContent-Type: " ++ ct ++ "\r\n\r\n") := by
  simp [InternalStream.push_str, streamb0, utf8_append]

/-! Claim theorems. -/

/-- C1: for the request `GET / HTTP/1.1\r\n\r\n` against a static root whose
`index.html` has content `C`, the bytes submitted to the connection's output
are exactly `HTTP/1.1 200 OK\nContent-Type: text/html; charset=utf-8\r\n\r\n`
followed by `C` (bare `\n` after the status line, `\r\n\r\n` before the
body), and the handler reports completion. -/
theorem c1_root_request_serves_index (root : String) (urls : List (String × String × Nat))
    (fs : String → Option String) (C : String)
    (hidx : fs (root ++ "/index.html") = some C) :
    handle_connection (utf8 "GET / HTTP/1.1\r\n\r\n") ⟨root, urls⟩ fs
      = (.wrote (utf8 ("HTTP/1.1 200 OK\nContent-Type: text/html; charset=utf-8\r\n\r\n" ++ C)),
         .oldTask) := by
  rw [handle_connection, parse_root_request]
  simp [route, hidx, output_200_html]

/-- C1 witness: concrete instantiation with root `root` and index contents
`<p>hi</p>`. -/
theorem c1_witness :
    ((fun p => if p = "root/index.html" then some "<p>hi</p>" else none)
        ("root" ++ "/index.html") = some "<p>hi</p>") ∧
      handle_connection (utf8 "GET / HTTP/1.1\r\n\r\n") ⟨"root", []⟩
          (fun p => if p = "root/index.html" then some "<p>hi</p>" else none)
        = (.wrote (utf8 ("HTTP/1.1 200 OK\nContent-Type: text/html; charset=utf-8\r\n\r\n"
            ++ "<p>hi</p>")), .oldTask) :=
  ⟨by decide, c1_root_request_serves_index "root" []
    (fun p => if p = "root/index.html" then some "<p>hi</p>" else none) "<p>hi</p>" (by decide)⟩

/-- C2: for every well-formed request with path `P`, route resolution follows
the precedence: `P = "/"` serves the static root's `index.html` without
consulting the route table; otherwise an exact route-table match writes a 200
status line with the entry's content type into the stream and runs the
registered handler; otherwise an existing static file at root ++ `P` is
served with 200 and `text/html; charset=utf-8`; otherwise a 404 response is
served whose body is the root's `404.html` content if present, else the
literal `404 NOT FOUND`. -/
theorem c2_route_precedence (buffer : List Nat) (P root : String)
    (urls : List (String × String × Nat)) (fs : String → Option String)
    (hparse : parseRequest buffer = some P) :
    (P = "/" → ∀ urls' : List (String × String × Nat),
      handle_connection buffer ⟨root, urls'⟩ fs = handle_connection buffer ⟨root, []⟩ fs) ∧
    (P = "/" → ∀ C : String, fs (root ++ "/index.html") = some C →
      handle_connection buffer ⟨root, urls⟩ fs
        = (.wrote (utf8 ("HTTP/1.1 200 OK\nContent-Type: text/html; charset=utf-8\r\n\r\n"
            ++ C)), .oldTask)) ∧
    (P ≠ "/" → ∀ (ct : String) (h : Nat), List.lookup P urls = some (ct, h) →
      handle_connection buffer ⟨root, urls⟩ fs
        = (.handedToHandler h ct (utf8 ("HTTP/1.1 200 OK\nContent-Type: " ++ ct ++ "\r\n\r\n")),
           .oldTask)) ∧
    (P ≠ "/" → List.lookup P urls = none → ∀ C : String, fs (root ++ P) = some C →
      handle_connection buffer ⟨root, urls⟩ fs
        = (.wrote (utf8 ("HTTP/1.1 200 OK\nContent-Type: text/html; charset=utf-8\r\n\r\n"
            ++ C)), .oldTask)) ∧
    (P ≠ "/" → List.lookup P urls = none → fs (root ++ P) = none →
      ∀ D : String, fs (root ++ "/404.html") = some D →
      handle_connection buffer ⟨root, urls⟩ fs
        = (.wrote (utf8 ("HTTP/1.1 404 NOT FOUND\nContent-Type: text/html; charset=utf-8\r\n\r\n"
            ++ D)), .oldTask)) ∧
    (P ≠ "/" → List.lookup P urls = none → fs (root ++ P) = none →
      fs (root ++ "/404.html") = none →
      handle_connection buffer ⟨root, urls⟩ fs
        = (.wrote (utf8 ("HTTP/1.1 404 NOT FOUND\nContent-Type: text/html; charset=utf-8\r\n\r\n"
            ++ "404 NOT FOUND")), .oldTask)) := by
  refine ⟨?_, ?_, ?_, ?_, ?_, ?_⟩
  · intro hP urls'
    subst hP
    simp only [handle_connection, hparse]
    simp [route]
  · intro hP C hC
    rw [handle_connection, hparse, hP]
    simp [route, hC, output_200_html]
  · intro hP ct h hlook
    rw [handle_connection, hparse]
    simp [route, hP, hlook, output_200_ct]
  · intro hP hlook C hC
    rw [handle_connection, hparse]
    simp [route, hP, hlook, hC, output_200_html]
  · intro hP hlook hpage D hD
    rw [handle_connection, hparse]
    simp [route, hP, hlook, hpage, hD, output_404_body]
  · intro hP hlook hpage hD
    rw [handle_connection, hparse]
    simp [route, hP, hlook, hpage, hD, output_404_body]

/-- C2 witness: each precedence branch exercised at a concrete request,
route table and filesystem. -/
theorem c2_witness :
    (handle_connection (utf8 "GET / HTTP/1.1\r\n\r\n") ⟨"root", [("/", ("x", 9))]⟩
        (fun p => if p = "root/index.html" then some "IDX" else none)
      = handle_connection (utf8 "GET / HTTP/1.1\r\n\r\n") ⟨"root", []⟩
        (fun p => if p = "root/index.html" then some "IDX" else none)) ∧
    (handle_connection (utf8 "GET / HTTP/1.1\r\n\r\n") ⟨"root", []⟩
        (fun p => if p = "root/index.html" then some "IDX" else none)
      = (.wrote (utf8 ("HTTP/1.1 200 OK\nContent-Type: text/html; charset=utf-8\r\n\r\n"
          ++ "IDX")), .oldTask)) ∧
    (handle_connection (utf8 "GET /a HTTP/1.1\r\n\r\n")
        ⟨"root", [("/a", ("application/json", 7))]⟩ (fun _ => none)
      = (.handedToHandler 7 "application/json"
          (utf8 ("HTTP/1.1 200 OK\nContent-Type: " ++ "application/json" ++ "\r\n\r\n")),
         .oldTask)) ∧
    (handle_connection (utf8 "GET /a HTTP/1.1\r\n\r\n") ⟨"root", []⟩
        (fun p => if p = "root/a" then some "PG" else none)
      = (.wrote (utf8 ("HTTP/1.1 200 OK\nContent-Type: text/html; charset=utf-8\r\n\r\n"
          ++ "PG")), .oldTask)) ∧
    (handle_connection (utf8 "GET /a HTTP/1.1\r\n\r\n") ⟨"root", []⟩
        (fun p => if p = "root/404.html" then some "NF" else none)
      = (.wrote (utf8 ("HTTP/1.1 404 NOT FOUND\nContent-Type: text/html; charset=utf-8\r\n\r\n"
          ++ "NF")), .oldTask)) ∧
    (handle_connection (utf8 "GET /a HTTP/1.1\r\n\r\n") ⟨"root", []⟩ (fun _ => none)
      = (.wrote (utf8 ("HTTP/1.1 404 NOT FOUND\nContent-Type: text/html; charset=utf-8\r\n\r\n"
          ++ "404 NOT FOUND")), .oldTask)) :=
  ⟨(c2_route_precedence (utf8 "GET / HTTP/1.1\r\n\r\n") "/" "root" []
      (fun p => if p = "root/index.html" then some "IDX" else none) (by decide)).1 rfl
      [("/", ("x", 9))],
   (c2_route_precedence (utf8 "GET / HTTP/1.1\r\n\r\n") "/" "root" []
      (fun p => if p = "root/index.html" then some "IDX" else none) (by decide)).2.1 rfl
      "IDX" (by decide),
   (c2_route_precedence (utf8 "GET /a HTTP/1.1\r\n\r\n") "/a" "root"
      [("/a", ("application/json", 7))] (fun _ => none) (by decide)).2.2.1 (by decide)
      "application/json" 7 (by decide),
   (c2_route_precedence (utf8 "GET /a HTTP/1.1\r\n\r\n") "/a" "root" []
      (fun p => if p = "root/a" then some "PG" else none) (by decide)).2.2.2.1 (by decide)
      (by decide) "PG" (by decide),
   (c2_route_precedence (utf8 "GET /a HTTP/1.1\r\n\r\n") "/a" "root" []
      (fun p => if p = "root/404.html" then some "NF" else none) (by decide)).2.2.2.2.1
      (by decide) (by decide) (by decide) "NF" (by decide),
   (c2_route_precedence (utf8 "GET /a HTTP/1.1\r\n\r\n") "/a" "root" []
      (fun _ => none) (by decide)).2.2.2.2.2 (by decide) (by decide) (by decide) (by decide)⟩

/-- Dropping a prefix shifts `getD` indices. -/
theorem getD_drop (l : List Nat) (m k : Nat) : (l.drop m).getD k 0 = l.getD (m + k) 0 := by
  simp [List.getD_eq_getElem?_getD, List.getElem?_drop]

/-- The space-scanning loop returns `none` when no byte of the list is a
space. -/
theorem findSpaceAux_none (l : List Nat) (i : Nat)
    (h : ∀ k, k < l.length → l.getD k 0 ≠ 32) : findSpaceAux l i = none := by
  induction l generalizing i with
  | nil => rfl
  | cons b rest ih =>
    have hb : b ≠ 32 := by simpa using h 0 (by simp)
    simp only [findSpaceAux, hb, if_false]
    exact ih (i + 1) (fun k hk => by simpa using h (k + 1) (by simpa using hk))

/-- The space-scanning loop returns the index of the first space. -/
theorem findSpaceAux_some (l : List Nat) (i k : Nat) (hk : k < l.length)
    (hsp : l.getD k 0 = 32) (hfirst : ∀ j, j < k → l.getD j 0 ≠ 32) :
    findSpaceAux l i = some (i + k) := by
  induction l generalizing i k with
  | nil => simp at hk
  | cons b rest ih =>
    cases k with
    | zero =>
      simp only [List.getD_cons_zero] at hsp
      simp [findSpaceAux, hsp]
    | succ k' =>
      have hb : b ≠ 32 := by simpa using hfirst 0 (Nat.succ_pos k')
      simp only [findSpaceAux, hb, if_false]
      have := ih (i + 1) k' (by simpa using hk) (by simpa using hsp)
        (fun j hj => by simpa using hfirst (j + 1) (Nat.succ_lt_succ hj))
      rw [this]
      congr 1
      omega

/-- Characterization of `pathEnd`: if `e` is the position of the first space
byte at index 4 or later, the scan finds exactly `e`. -/
theorem pathEnd_eq (buffer : List Nat) (e : Nat) (he4 : 4 ≤ e)
    (helen : e < buffer.length) (hsp : buffer.getD e 0 = 32)
    (hfirst : ∀ j, 4 ≤ j → j < e → buffer.getD j 0 ≠ 32) :
    pathEnd buffer = some e := by
  have h := findSpaceAux_some (buffer.drop 4) 4 (e - 4)
    (by simp only [List.length_drop]; omega)
    (by rw [getD_drop]; rw [show 4 + (e - 4) = e by omega]; exact hsp)
    (fun j hj => by
      rw [getD_drop]
      exact hfirst (4 + j) (by omega) (by omega))
  rw [pathEnd, h]
  congr 1
  omega

/-- C3: for every request buffer that is missing the `GET ` prefix, or has no
space byte at index 4 or later, or is not followed after the path's
terminating space by the literal `HTTP/1.1\r\n`, or whose path bytes are not
valid UTF-8, the connection handler writes zero bytes to the socket and
returns the completion signal `OldTask`, surfacing no error. -/
theorem c3_malformed_request_silent (buffer : List Nat) (web : Web)
    (fs : String → Option String)
    (h : ¬ ((utf8 "GET ").isPrefixOf buffer)
      ∨ (∀ k, k < buffer.length → 4 ≤ k → buffer.getD k 0 ≠ 32)
      ∨ (∃ e, 4 ≤ e ∧ e < buffer.length ∧ buffer.getD e 0 = 32
          ∧ (∀ j, j < e → 4 ≤ j → buffer.getD j 0 ≠ 32)
          ∧ ¬ ((utf8 "HTTP/1.1\r\n").isPrefixOf (buffer.drop (e + 1))))
      ∨ (∃ e, 4 ≤ e ∧ e < buffer.length ∧ buffer.getD e 0 = 32
          ∧ (∀ j, j < e → 4 ≤ j → buffer.getD j 0 ≠ 32)
          ∧ utf8Decode ((buffer.drop 4).take (e - 4)) = none)) :
    handle_connection buffer web fs = (.silentClose, .oldTask)
      ∧ (handle_connection buffer web fs).1.socketBytes = [] := by
  have hparse : parseRequest buffer = none := by
    rcases h with h | h | ⟨e, he4, helen, hsp, hfirst, hhttp⟩ | ⟨e, he4, helen, hsp, hfirst, hdec⟩
    · simp [parseRequest, h]
    · have hend : pathEnd buffer = none := by
        apply findSpaceAux_none
        intro k hk
        rw [getD_drop]
        simp only [List.length_drop] at hk
        exact h (4 + k) (by omega) (by omega)
      simp [parseRequest, hend]
    · have hend := pathEnd_eq buffer e he4 helen hsp
        (fun j h4 hje => hfirst j hje h4)
      simp [parseRequest, hend, hhttp]
    · have hend := pathEnd_eq buffer e he4 helen hsp
        (fun j h4 hje => hfirst j hje h4)
      by_cases hhttp : (utf8 "HTTP/1.1\r\n").isPrefixOf (buffer.drop (e + 1))
      · simp [parseRequest, hend, hhttp, hdec]
      · simp [parseRequest, hend, hhttp]
  rw [handle_connection, hparse]
  exact ⟨rfl, rfl⟩

/-- C3 witness: three concrete malformed requests (wrong method, missing
space, wrong protocol, invalid UTF-8 path) all close silently. -/
theorem c3_witness :
    (handle_connection (utf8 "POST / HTTP/1.1\r\n\r\n") ⟨"root", []⟩ (fun _ => none)
      = (.silentClose, .oldTask)) ∧
    (handle_connection (utf8 "GET /nospace") ⟨"root", []⟩ (fun _ => none)
      = (.silentClose, .oldTask)) ∧
    (handle_connection (utf8 "GET / HTTP/1.0\r\n\r\n") ⟨"root", []⟩ (fun _ => none)
      = (.silentClose, .oldTask)) ∧
    (handle_connection [71, 69, 84, 32, 255, 32, 72, 84, 84, 80, 47, 49, 46, 49, 13, 10]
        ⟨"root", []⟩ (fun _ => none)
      = (.silentClose, .oldTask)) :=
  ⟨(c3_malformed_request_silent _ ⟨"root", []⟩ (fun _ => none) (Or.inl (by decide))).1,
   (c3_malformed_request_silent _ ⟨"root", []⟩ (fun _ => none)
     (Or.inr (Or.inl (by decide)))).1,
   (c3_malformed_request_silent _ ⟨"root", []⟩ (fun _ => none)
     (Or.inr (Or.inr (Or.inl ⟨5, by decide, by decide, by decide, by decide, by decide⟩)))).1,
   (c3_malformed_request_silent _ ⟨"root", []⟩ (fun _ => none)
     (Or.inr (Or.inr (Or.inr ⟨5, by decide, by decide, by decide, by decide, by decide⟩)))).1⟩

/-- C4 counterexample: a poll in which the underlying read returns `Ok(0)`
(peer closed) does NOT resolve ready — the `bytes != 0` guard on the first
match arm sends `Ok(0)` into the catch-all arm, which registers the waker and
returns `Pending`. -/
theorem c4_counterexample :
    streamReadPoll [ReadEvent.ok []] [] = ReadPoll.pending []
      ∧ streamReadPoll [ReadEvent.ok []] [] ≠ ReadPoll.ready [] := by
  decide

/-- C4 (amended): the read-until-short future completes exactly on a read
returning `n` bytes with `0 < n < 512`, appending every successful non-empty
read to the accumulating buffer; a full 512-byte read appends and continues
the loop; on would-block, and likewise on a zero-byte read (peer closed), it
registers the waker and suspends. -/
theorem c4_read_until_short (d : List Nat) (script : List ReadEvent) (buf : List Nat) :
    (0 < d.length → d.length < 512 →
      streamReadPoll (.ok d :: script) buf = .ready (buf ++ d)) ∧
    (d.length = 512 →
      streamReadPoll (.ok d :: script) buf = streamReadPoll script (buf ++ d)) ∧
    streamReadPoll (.wouldBlock :: script) buf = .pending buf ∧
    streamReadPoll (.ok [] :: script) buf = .pending buf := by
  refine ⟨?_, ?_, rfl, rfl⟩
  · intro h1 h2
    have hne : d.length ≠ 0 := by omega
    have hne512 : d.length ≠ 512 := by omega
    simp [streamReadPoll, hne, hne512]
  · intro h
    simp [streamReadPoll, h]

/-- C4 witness: a 512-byte read continues the loop and a following 1-byte
read completes with both reads appended in order. -/
theorem c4_witness :
    (0 < ([7] : List Nat).length ∧ ([7] : List Nat).length < 512
        ∧ (List.replicate 512 3).length = 512)
      ∧ streamReadPoll [ReadEvent.ok (List.replicate 512 3), ReadEvent.ok [7]] []
          = ReadPoll.ready (List.replicate 512 3 ++ [7]) := by
  refine ⟨⟨by decide, by decide, List.length_replicate 512 3⟩, ?_⟩
  rw [(c4_read_until_short (List.replicate 512 3)
    [ReadEvent.ok [7]] []).2.1 (List.length_replicate 512 3)]
  exact (c4_read_until_short [7] [] (List.replicate 512 3)).1 (by decide) (by decide)

/-- C5 counterexample: when the underlying write fails, `send` does not
return an error value — the `StreamWrite` future panics (killing the
process), so no `Err` is ever produced through the `Result`. -/
theorem c5_counterexample :
    (InternalStream.send ⟨0, 0, []⟩ (.err "x") (.ok 0)).1
        = SendResult.panicked "Stream Write IO Error x!"
      ∧ ((InternalStream.send ⟨0, 0, []⟩ (.err "x") (.ok 0)).1).isErrReturn = false :=
  ⟨rfl, rfl⟩

/-- C5 (amended): `send` returns a `Result`, but the only value it ever
returns is `Ok(())`; when the underlying write or flush fails, the process
panics inside `StreamWrite`/`StreamFlush` instead of an error being reported
through the return value, and on success the whole pending buffer is
submitted and the stream is returned unchanged. -/
theorem c5_send_never_returns_error (s : InternalStream) :
    (∀ w f, ((s.send w f).1).isErrReturn = false) ∧
    (∀ n k, s.send (.ok n) (.ok k) = (.sent s.output (Except.ok ()), s)) ∧
    (∀ m f, s.send (.err m) f
      = (.panicked ("Stream Write IO Error " ++ m ++ "!"), s)) ∧
    (∀ n m, s.send (.ok n) (.err m)
      = (.panicked ("Stream Write IO Error " ++ m ++ "!"), s)) := by
  refine ⟨fun w f => ?_, fun n k => rfl, fun m f => rfl, fun n m => rfl⟩
  cases w <;> cases f <;> rfl

/-- Reading `getD` inside the left part of an append. -/
theorem getD_append_left (l1 l2 : List Nat) (i : Nat) (h : i < l1.length) :
    (l1 ++ l2).getD i 0 = l1.getD i 0 := by
  simp [List.getD_eq_getElem?_getD, List.getElem?_append, h]

/-- Reading `getD` just past the left part of an append of a singleton. -/
theorem getD_append_self (l1 : List Nat) (n : Nat) :
    (l1 ++ [n]).getD l1.length 0 = n := by
  simp [List.getD_eq_getElem?_getD, List.getElem?_append]

/-- Invariant-carrying correctness of the `WebServer::poll` selection loop:
if the accumulator `(bestId, bestVal)` is the first minimum of the prefix
already scanned, then the final result is the first minimum of the whole
list. -/
theorem selectAux_spec (rest : List Nat) :
    ∀ (pfx : List Nat) (bestId bestVal : Nat),
    bestId < pfx.length →
    pfx.getD bestId 0 = bestVal →
    (∀ j, j < pfx.length → bestVal ≤ pfx.getD j 0) →
    (∀ j, j < bestId → bestVal < pfx.getD j 0) →
    (selectAux bestId bestVal pfx.length rest).1 < (pfx ++ rest).length
      ∧ (pfx ++ rest).getD (selectAux bestId bestVal pfx.length rest).1 0
          = (selectAux bestId bestVal pfx.length rest).2
      ∧ (∀ j, j < (pfx ++ rest).length
          → (selectAux bestId bestVal pfx.length rest).2 ≤ (pfx ++ rest).getD j 0)
      ∧ (∀ j, j < (selectAux bestId bestVal pfx.length rest).1
          → (selectAux bestId bestVal pfx.length rest).2 < (pfx ++ rest).getD j 0) := by
  induction rest with
  | nil =>
    intro pfx bestId bestVal h1 h2 h3 h4
    rw [List.append_nil]
    exact ⟨h1, h2, h3, h4⟩
  | cons n rest ih =>
    intro pfx bestId bestVal h1 h2 h3 h4
    have hcat : pfx ++ n :: rest = (pfx ++ [n]) ++ rest := by simp
    by_cases hn : n < bestVal
    · have hstep : selectAux bestId bestVal pfx.length (n :: rest)
          = selectAux pfx.length n (pfx ++ [n]).length rest := by
        simp [selectAux, hn]
      have := ih (pfx ++ [n]) pfx.length n
        (by simp)
        (getD_append_self pfx n)
        (fun j hj => by
          rcases Nat.lt_or_ge j pfx.length with hlt | hge
          · rw [getD_append_left _ _ _ hlt]
            exact Nat.le_of_lt (Nat.lt_of_lt_of_le hn (h3 j hlt))
          · have hj' : j = pfx.length := by simp at hj; omega
            rw [hj', getD_append_self])
        (fun j hj => by
          rw [getD_append_left _ _ _ hj]
          exact Nat.lt_of_lt_of_le hn (h3 j hj))
      rw [hstep, hcat]
      exact this
    · have hstep : selectAux bestId bestVal pfx.length (n :: rest)
          = selectAux bestId bestVal (pfx ++ [n]).length rest := by
        simp [selectAux, hn]
      have := ih (pfx ++ [n]) bestId bestVal
        (by simp; omega)
        (by rw [getD_append_left _ _ _ h1]; exact h2)
        (fun j hj => by
          rcases Nat.lt_or_ge j pfx.length with hlt | hge
          · rw [getD_append_left _ _ _ hlt]
            exact h3 j hlt
          · have hj' : j = pfx.length := by simp at hj; omega
            rw [hj', getD_append_self]
            omega)
        (fun j hj => by
          rw [getD_append_left _ _ _ (Nat.lt_of_lt_of_le hj (Nat.le_of_lt h1))]
          exact h4 j hj)
      rw [hstep, hcat]
      exact this

/-- C6: dispatching a job selects the worker whose counter value is minimal
over all workers, with ties broken by the lowest worker index, and that
worker's counter is incremented by exactly one while the job is appended to
that worker's channel (`Thread::send` performs `fetch_add(1)` before the
channel send). -/
theorem c6_dispatch_least_busy (t0 : ThreadH) (ts : List ThreadH) (job : Nat) :
    (serverDispatch (t0 :: ts) job).2 < (t0 :: ts).length
      ∧ (∀ j, j < ((t0 :: ts).map ThreadH.num_tasks).length
          → ((t0 :: ts).map ThreadH.num_tasks).getD (serverDispatch (t0 :: ts) job).2 0
              ≤ ((t0 :: ts).map ThreadH.num_tasks).getD j 0)
      ∧ (∀ j, j < (serverDispatch (t0 :: ts) job).2
          → ((t0 :: ts).map ThreadH.num_tasks).getD (serverDispatch (t0 :: ts) job).2 0
              < ((t0 :: ts).map ThreadH.num_tasks).getD j 0)
      ∧ (serverDispatch (t0 :: ts) job).1
          = (t0 :: ts).set (serverDispatch (t0 :: ts) job).2
              ⟨((t0 :: ts).getD (serverDispatch (t0 :: ts) job).2 ⟨0, []⟩).num_tasks + 1,
               ((t0 :: ts).getD (serverDispatch (t0 :: ts) job).2 ⟨0, []⟩).queue ++ [job]⟩ := by
  have hsel : selectThread ((t0 :: ts).map ThreadH.num_tasks)
      = selectAux 0 t0.num_tasks ([t0.num_tasks] : List Nat).length (ts.map ThreadH.num_tasks) := by
    simp [selectThread]
  have hspec := selectAux_spec (ts.map ThreadH.num_tasks) [t0.num_tasks] 0 t0.num_tasks
    (by simp) (by simp) (fun j hj => by simp at hj; simp [hj]) (fun j hj => by omega)
  have hlist : ([t0.num_tasks] : List Nat) ++ ts.map ThreadH.num_tasks
      = (t0 :: ts).map ThreadH.num_tasks := by simp
  rw [hlist] at hspec
  have hidx : (serverDispatch (t0 :: ts) job).2
      = (selectThread ((t0 :: ts).map ThreadH.num_tasks)).1 := rfl
  have hidx2 : (serverDispatch (t0 :: ts) job).2
      = (selectAux 0 t0.num_tasks ([t0.num_tasks] : List Nat).length
          (ts.map ThreadH.num_tasks)).1 := by
    rw [hidx, hsel]
  have hval := hspec.2.1
  refine ⟨?_, ?_, ?_, ?_⟩
  · rw [hidx2]
    simpa using hspec.1
  · intro j hj
    rw [hidx2, hval]
    exact hspec.2.2.1 j hj
  · intro j hj
    rw [hidx2] at hj
    rw [hidx2, hval]
    exact hspec.2.2.2 j hj
  · rfl

/-- C6 witness: a concrete pool where the unique minimum sits at index 2 and
a pool with a tie between indices 1 and 2 (index 1 wins). -/
theorem c6_witness :
    ((serverDispatch [⟨2, []⟩, ⟨1, [5]⟩, ⟨1, []⟩, ⟨3, []⟩] 42).2 = 1
        ∧ (serverDispatch [⟨2, []⟩, ⟨1, [5]⟩, ⟨1, []⟩, ⟨3, []⟩] 42).1
            = [⟨2, []⟩, ⟨2, [5, 42]⟩, ⟨1, []⟩, ⟨3, []⟩])
      ∧ (serverDispatch [⟨2, []⟩, ⟨1, [5]⟩, ⟨1, []⟩, ⟨3, []⟩] 42).2
          < ([⟨2, []⟩, ⟨1, [5]⟩, ⟨1, []⟩, ⟨3, []⟩] : List ThreadH).length := by
  refine ⟨⟨by decide, by decide⟩, ?_⟩
  exact (c6_dispatch_least_busy ⟨2, []⟩ [⟨1, [5]⟩, ⟨1, []⟩, ⟨3, []⟩] 42).1

/-- Counter evolution: the value after a trace is the start value plus the
number of dispatches minus the number of completions. -/
theorem counterFrom_eq (tr : List WorkerEvent) :
    ∀ c : Int, counterFrom c tr
      = c + (tr.count WorkerEvent.dispatch : Int) - (tr.count WorkerEvent.complete : Int) := by
  induction tr with
  | nil => intro c; simp [counterFrom]
  | cons e rest ih =>
    intro c
    cases e
    · simp [counterFrom, ih, List.count_cons]
      omega
    · simp [counterFrom, ih, List.count_cons]
      omega

/-- C7: each worker's counter is incremented exactly once per dispatched job
(`Thread::send`) and decremented exactly once per completion: every branch of
the connection handler returns `OldTask`, the executor loop decrements the
counter exactly once on `OldTask` and leaves it untouched on the other
messages, and along any trace in which no prefix has more completions than
dispatches the counter never goes negative and returns to zero once all
dispatched connections have completed. -/
theorem c7_counter_balance :
    (∀ (buffer : List Nat) (web : Web) (fs : String → Option String),
      (handle_connection buffer web fs).2 = .oldTask) ∧
    (∀ c : Int, loopCounterStep c .oldTask = c - 1
      ∧ loopCounterStep c .newTask = c ∧ loopCounterStep c .quit = c) ∧
    (∀ (t : ThreadH) (job : Nat), (threadSend t job).num_tasks = t.num_tasks + 1) ∧
    (∀ tr : List WorkerEvent,
      (∀ p ∈ tr.inits, p.count WorkerEvent.complete ≤ p.count WorkerEvent.dispatch) →
      (∀ p ∈ tr.inits, 0 ≤ counterAfter p) ∧
      (tr.count WorkerEvent.complete = tr.count WorkerEvent.dispatch →
        counterAfter tr = 0)) := by
  refine ⟨?_, fun c => ⟨rfl, rfl, rfl⟩, fun t job => rfl, ?_⟩
  · intro buffer web fs
    rw [handle_connection]
    cases parseRequest buffer <;> rfl
  · intro tr h
    constructor
    · intro p hp
      rw [counterAfter, counterFrom_eq]
      have := h p hp
      omega
    · intro hbal
      rw [counterAfter, counterFrom_eq]
      omega

/-- C7 witness: the connection future reports completion on a concrete
request, the loop decrements on `OldTask`, `Thread::send` increments, and a
balanced dispatch/complete trace keeps the counter non-negative and ends at
zero. -/
theorem c7_witness :
    (handle_connection (utf8 "GET / HTTP/1.1\r\n\r\n") ⟨"root", []⟩ (fun _ => none)).2
        = .oldTask
      ∧ loopCounterStep 5 .oldTask = 5 - 1
      ∧ (threadSend ⟨0, []⟩ 1).num_tasks = 0 + 1
      ∧ (∀ p ∈ ([.dispatch, .dispatch, .complete, .complete] : List WorkerEvent).inits,
          0 ≤ counterAfter p)
      ∧ counterAfter [.dispatch, .dispatch, .complete, .complete] = 0 :=
  ⟨c7_counter_balance.1 (utf8 "GET / HTTP/1.1\r\n\r\n") ⟨"root", []⟩ (fun _ => none),
   (c7_counter_balance.2.1 5).1,
   c7_counter_balance.2.2.1 ⟨0, []⟩ 1,
   (c7_counter_balance.2.2.2 [.dispatch, .dispatch, .complete, .complete] (by decide)).1,
   (c7_counter_balance.2.2.2 [.dispatch, .dispatch, .complete, .complete] (by decide)).2
     (by decide)⟩

/-- C8: each poll of the multiplexer scans entries from index 0 in collection
order; on the first ready entry it removes that entry (shifting later entries
down) and resolves with exactly its result; if no entry is ready it stays
pending (every constituent has been polled with the waker) and the collection
is unchanged. -/
theorem c8_slice_select (α : Type) (l : List (MPoll α)) :
    (∀ (i : Nat) (a : α), i < l.length → l.getD i .pending = .ready a →
      (∀ j, j < i → l.getD j .pending = .pending) →
      sliceSelectPoll l = some (a, l.eraseIdx i)) ∧
    ((∀ j, j < l.length → l.getD j .pending = .pending) → sliceSelectPoll l = none) := by
  induction l with
  | nil =>
    exact ⟨fun i a hi => by simp at hi, fun _ => rfl⟩
  | cons x rest ih =>
    constructor
    · intro i a hi hget hfirst
      cases i with
      | zero =>
        simp only [List.getD_cons_zero] at hget
        subst hget
        rfl
      | succ i' =>
        have hx : x = .pending := by simpa using hfirst 0 (Nat.succ_pos i')
        subst hx
        have hrec := ih.1 i' a (by simpa using hi) (by simpa using hget)
          (fun j hj => by simpa using hfirst (j + 1) (Nat.succ_lt_succ hj))
        simp only [sliceSelectPoll, hrec]
        rfl
    · intro h
      have hx : x = .pending := by simpa using h 0 (by simp)
      subst hx
      have hrec := ih.2 (fun j hj => by simpa using h (j + 1) (by simpa using hj))
      simp only [sliceSelectPoll, hrec]

/-- C8 witness: with the first ready entry at index 1, the multiplexer
resolves with its value and removes it; with all entries pending it stays
pending with nothing removed. -/
theorem c8_witness :
    sliceSelectPoll [MPoll.pending, MPoll.ready 5, MPoll.ready 7]
        = some (5, [MPoll.pending, MPoll.ready 7])
      ∧ sliceSelectPoll ([MPoll.pending, MPoll.pending] : List (MPoll Nat)) = none :=
  ⟨(c8_slice_select Nat [MPoll.pending, MPoll.ready 5, MPoll.ready 7]).1 1 5
      (by decide) (by decide)
      (fun j hj => by
        have hj0 : j = 0 := by omega
        subst hj0
        rfl),
   (c8_slice_select Nat [MPoll.pending, MPoll.pending]).2
      (fun j hj => by
        have : j = 0 ∨ j = 1 := by simp at hj; omega
        rcases this with h0 | h1
        · subst h0; rfl
        · subst h1; rfl)⟩

/-- C9 counterexample: `send` does not clear the pending buffer, so the
buffer is NOT merely what was pushed since the last send — after pushing
"a" (byte 97), sending, then pushing byte 98, the second send transmits
[97, 98], not just [98]. -/
theorem c9_counterexample :
    (((((InternalStream.mk 0 0 []).push_str "a").send (.ok 1) (.ok 0)).2.push_data
        [98]).send (.ok 1) (.ok 0)).1
      = SendResult.sent [97, 98] (Except.ok ())
    ∧ [97, 98] ≠ [98] :=
  ⟨rfl, by decide⟩

/-- C9 (amended): pushing `s` via `push_str` and then `b` via `push_data` on
a fresh stream and then sending produces a single contiguous output equal to
the UTF-8 encoding of `s` followed by `b`, in push order; in general the
pending buffer is the concatenation, in call order, of everything pushed
since the stream's creation, because `send` transmits the buffer without
clearing it. -/
theorem c9_push_order_roundtrip (sock dev : Nat) (s : String) (b : List Nat) (n k : Nat) :
    ((((InternalStream.mk sock dev []).push_str s).push_data b).output = utf8 s ++ b)
    ∧ (((InternalStream.mk sock dev []).push_str s).push_data b).send (.ok n) (.ok k)
        = (.sent (utf8 s ++ b) (Except.ok ()),
           ((InternalStream.mk sock dev []).push_str s).push_data b)
    ∧ (∀ (st : InternalStream) (t : String), (st.push_str t).output = st.output ++ utf8 t)
    ∧ (∀ (st : InternalStream) (d : List Nat), (st.push_data d).output = st.output ++ d)
    ∧ (∀ (st : InternalStream) (w f : IOOutcome), (st.send w f).2 = st) := by
  refine ⟨?_, ?_, fun st t => rfl, fun st d => rfl, fun st w f => ?_⟩
  · simp [InternalStream.push_str, InternalStream.push_data]
  · simp [InternalStream.push_str, InternalStream.push_data, InternalStream.send,
      streamWriteAwait, streamFlushAwait]
  · cases w <;> cases f <;> rfl

/-- C10: with the slot occupied, each public `Stream` operation takes the
internal state, mutates only the pending-output buffer (send leaves even that
unchanged, merely transmitting it), and restores the state, so the slot is
occupied again at return; with the slot empty, each operation panics on the
`unwrap` of the empty take. -/
theorem c10_slot_discipline (st : InternalStream) (text : String) (bytes : List Nat)
    (n k : Nat) (w f : IOOutcome) :
    (Stream.push_str ⟨some st⟩ text
        = .ok ⟨some ⟨st.sock, st.write_device, st.output ++ utf8 text⟩⟩)
    ∧ (Stream.push_data ⟨some st⟩ bytes
        = .ok ⟨some ⟨st.sock, st.write_device, st.output ++ bytes⟩⟩)
    ∧ (Stream.send ⟨some st⟩ (.ok n) (.ok k)
        = .ok (⟨some st⟩, .sent st.output (Except.ok ())))
    ∧ Stream.push_str ⟨none⟩ text = .panicked "called `Option::unwrap()` on a `None` value"
    ∧ Stream.push_data ⟨none⟩ bytes = .panicked "called `Option::unwrap()` on a `None` value"
    ∧ Stream.send ⟨none⟩ w f = .panicked "called `Option::unwrap()` on a `None` value" := by
  refine ⟨rfl, rfl, rfl, rfl, rfl, ?_⟩
  cases w <;> cases f <;> rfl

end CalaWeb
